import Mathlib

/-!
Verification of the Panda bytecode compiler/VM core (src/code.rs, src/vm.rs).

This file gives a shallow embedding of the instruction encoding and of the
virtual machine's dispatch loop, and proves or refutes the specification
claims about them.

Modelling conventions:
  * Rust `BigInt` is `Int`; `usize`/`u64` values are `Nat` (with explicit
    range side conditions where overflow or `try_from` matters);
    `isize` quantities (instruction pointers, range endpoints) are `Int`.
  * A Rust function returning `Result<T, String>` is `Outcome T`:
    `Outcome.ok` / `Outcome.err` mirror `Ok` / `Err(String)`, and
    `Outcome.panic` marks executions on which the Rust code panics
    (index out of bounds, integer underflow, `todo!()`, `unwrap` on `None`,
    division by zero on `BigInt`).  `Outcome.outOfFuel` is used by the
    fuel parameter that makes the (possibly diverging) `while` loops of
    the source total in Lean; theorems always supply enough fuel.
  * Pure helpers whose only failure mode is a panic return `Option`.
-/

set_option maxRecDepth 8000

namespace Panda

/-- Result of running embedded Rust code: `Ok`, `Err(String)`, a Rust panic,
or exhaustion of the fuel used to model unbounded loops. -/
inductive Outcome (α : Type) where
  | ok (value : α)
  | err (msg : String)
  | panic (msg : String)
  | outOfFuel
deriving Repr

instance : Monad Outcome where
  pure := .ok
  bind x f :=
    match x with
    | .ok a => f a
    | .err s => .err s
    | .panic s => .panic s
    | .outOfFuel => .outOfFuel

/-- An indexing operation that panics in Rust when the index is out of
bounds: `none` becomes `Outcome.panic`. -/
def idxPanic {α : Type} : Option α → Outcome α
  | some a => .ok a
  | none => .panic "index out of bounds"

/-- `Option::unwrap`: panics on `None`. -/
def unwrapPanic {α : Type} : Option α → Outcome α
  | some a => .ok a
  | none => .panic "unwrap of None"

/-! ## Instruction set and encoding (src/code.rs) -/

/-- `enum Opcode` from src/code.rs.  The byte value of an opcode is its
listed order (`#[repr(u8)]`, `TryFromPrimitive`). -/
inductive Opcode where
  | Constant
  | Pop
  | PopNoRet
  | Dup
  | Add
  | Sub
  | Mul
  | Div
  | Mod
  | BitXor
  | BitAnd
  | BitOr
  | Shr
  | Shl
  | True
  | False
  | Nil
  | Equal
  | NotEqual
  | GreaterThan
  | GreaterThanEqual
  | Minus
  | Bang
  | And
  | Or
  | Jump
  | JumpNotTruthy
  | GetGlobal
  | SetGlobal
  | Array
  | Dict
  | Index
  | Range
  | ReturnValue
  | Call
  | Return
  | GetLocal
  | SetLocal
  | GetBuiltin
  | Closure
  | GetFree
  | CurrentClosure
  | Method
  | Scope
  | Constructor
  | ClassMember
  | Delete
  | Next
  | Start
  | JumpEnd
  | String
deriving DecidableEq, Repr

/-- The discriminant of an opcode (`op as u8`). -/
def opByte : Opcode → Nat
  | .Constant => 0
  | .Pop => 1
  | .PopNoRet => 2
  | .Dup => 3
  | .Add => 4
  | .Sub => 5
  | .Mul => 6
  | .Div => 7
  | .Mod => 8
  | .BitXor => 9
  | .BitAnd => 10
  | .BitOr => 11
  | .Shr => 12
  | .Shl => 13
  | .True => 14
  | .False => 15
  | .Nil => 16
  | .Equal => 17
  | .NotEqual => 18
  | .GreaterThan => 19
  | .GreaterThanEqual => 20
  | .Minus => 21
  | .Bang => 22
  | .And => 23
  | .Or => 24
  | .Jump => 25
  | .JumpNotTruthy => 26
  | .GetGlobal => 27
  | .SetGlobal => 28
  | .Array => 29
  | .Dict => 30
  | .Index => 31
  | .Range => 32
  | .ReturnValue => 33
  | .Call => 34
  | .Return => 35
  | .GetLocal => 36
  | .SetLocal => 37
  | .GetBuiltin => 38
  | .Closure => 39
  | .GetFree => 40
  | .CurrentClosure => 41
  | .Method => 42
  | .Scope => 43
  | .Constructor => 44
  | .ClassMember => 45
  | .Delete => 46
  | .Next => 47
  | .Start => 48
  | .JumpEnd => 49
  | .String => 50

/-- `TryInto<Opcode>::try_into` on a byte (`TryFromPrimitive`). -/
def opcodeOfNat : Nat → Option Opcode
  | 0 => some .Constant
  | 1 => some .Pop
  | 2 => some .PopNoRet
  | 3 => some .Dup
  | 4 => some .Add
  | 5 => some .Sub
  | 6 => some .Mul
  | 7 => some .Div
  | 8 => some .Mod
  | 9 => some .BitXor
  | 10 => some .BitAnd
  | 11 => some .BitOr
  | 12 => some .Shr
  | 13 => some .Shl
  | 14 => some .True
  | 15 => some .False
  | 16 => some .Nil
  | 17 => some .Equal
  | 18 => some .NotEqual
  | 19 => some .GreaterThan
  | 20 => some .GreaterThanEqual
  | 21 => some .Minus
  | 22 => some .Bang
  | 23 => some .And
  | 24 => some .Or
  | 25 => some .Jump
  | 26 => some .JumpNotTruthy
  | 27 => some .GetGlobal
  | 28 => some .SetGlobal
  | 29 => some .Array
  | 30 => some .Dict
  | 31 => some .Index
  | 32 => some .Range
  | 33 => some .ReturnValue
  | 34 => some .Call
  | 35 => some .Return
  | 36 => some .GetLocal
  | 37 => some .SetLocal
  | 38 => some .GetBuiltin
  | 39 => some .Closure
  | 40 => some .GetFree
  | 41 => some .CurrentClosure
  | 42 => some .Method
  | 43 => some .Scope
  | 44 => some .Constructor
  | 45 => some .ClassMember
  | 46 => some .Delete
  | 47 => some .Next
  | 48 => some .Start
  | 49 => some .JumpEnd
  | 50 => some .String
  | _ => none

/-- The `strum::Display` name of an opcode (its variant name), used in
runtime error messages. -/
def opName : Opcode → String
  | .Constant => "Constant"
  | .Pop => "Pop"
  | .PopNoRet => "PopNoRet"
  | .Dup => "Dup"
  | .Add => "Add"
  | .Sub => "Sub"
  | .Mul => "Mul"
  | .Div => "Div"
  | .Mod => "Mod"
  | .BitXor => "BitXor"
  | .BitAnd => "BitAnd"
  | .BitOr => "BitOr"
  | .Shr => "Shr"
  | .Shl => "Shl"
  | .True => "True"
  | .False => "False"
  | .Nil => "Nil"
  | .Equal => "Equal"
  | .NotEqual => "NotEqual"
  | .GreaterThan => "GreaterThan"
  | .GreaterThanEqual => "GreaterThanEqual"
  | .Minus => "Minus"
  | .Bang => "Bang"
  | .And => "And"
  | .Or => "Or"
  | .Jump => "Jump"
  | .JumpNotTruthy => "JumpNotTruthy"
  | .GetGlobal => "GetGlobal"
  | .SetGlobal => "SetGlobal"
  | .Array => "Array"
  | .Dict => "Dict"
  | .Index => "Index"
  | .Range => "Range"
  | .ReturnValue => "ReturnValue"
  | .Call => "Call"
  | .Return => "Return"
  | .GetLocal => "GetLocal"
  | .SetLocal => "SetLocal"
  | .GetBuiltin => "GetBuiltin"
  | .Closure => "Closure"
  | .GetFree => "GetFree"
  | .CurrentClosure => "CurrentClosure"
  | .Method => "Method"
  | .Scope => "Scope"
  | .Constructor => "Constructor"
  | .ClassMember => "ClassMember"
  | .Delete => "Delete"
  | .Next => "Next"
  | .Start => "Start"
  | .JumpEnd => "JumpEnd"
  | .String => "String"

/-- Operand widths from the `DEFINITIONS` table in src/code.rs.  The table
is indexed by the opcode's discriminant and covers every opcode, so
`DEFINITIONS.get(op as usize)` always succeeds (the unit test
`test_definitions` checks the alignment). -/
def operandWidths : Opcode → List Nat
  | .Constant => [2]
  | .Pop => []
  | .PopNoRet => []
  | .Dup => []
  | .Add => []
  | .Sub => []
  | .Mul => []
  | .Div => []
  | .Mod => []
  | .BitXor => []
  | .BitAnd => []
  | .BitOr => []
  | .Shr => []
  | .Shl => []
  | .True => []
  | .False => []
  | .Nil => []
  | .Equal => []
  | .NotEqual => []
  | .GreaterThan => []
  | .GreaterThanEqual => []
  | .Minus => []
  | .Bang => []
  | .And => []
  | .Or => []
  | .Jump => [2]
  | .JumpNotTruthy => [2]
  | .GetGlobal => [2]
  | .SetGlobal => [2]
  | .Array => [2]
  | .Dict => [2]
  | .Index => []
  | .Range => [1]
  | .ReturnValue => []
  | .Call => [1]
  | .Return => []
  | .GetLocal => [1]
  | .SetLocal => [1]
  | .GetBuiltin => [1]
  | .Closure => [2, 1]
  | .GetFree => [1]
  | .CurrentClosure => []
  | .Method => [8, 1, 1]
  | .Scope => [1]
  | .Constructor => [1]
  | .ClassMember => [8, 1]
  | .Delete => [2]
  | .Next => []
  | .Start => []
  | .JumpEnd => [2, 2]
  | .String => [1]

/-- Big-endian byte string of width `n` for the value `o` (the semantics of
`u16::to_be_bytes` for `n = 2` and `usize::to_be_bytes` for `n = 8`; high
bits beyond `8 * n` are dropped exactly as the fixed-width integer would
drop them). -/
def beBytes : Nat → Nat → List Nat
  | 0, _ => []
  | n + 1, o => beBytes n (o / 256) ++ [o % 256]

/-- Recompose a big-endian byte string into a value
(`u16::from_be_bytes` / `u64::from_be_bytes`). -/
def beVal (bs : List Nat) : Nat :=
  bs.foldl (fun acc b => 256 * acc + b) 0

/-- The subslice `ins[offset..offset + n]`; `none` models the panic of
`try_into` / slicing when the slice is too short. -/
def readSlice (ins : List Nat) (offset n : Nat) : Option (List Nat) :=
  if offset + n ≤ ins.length then some ((ins.drop offset).take n) else none

/-- `read_u16` from src/code.rs (called `read_uint16` at its use sites in
src/vm.rs): two big-endian bytes at `offset`. -/
def read_u16 (ins : List Nat) (offset : Nat) : Option Nat :=
  (readSlice ins offset 2).map beVal

/-- `read_u64` from src/code.rs: eight big-endian bytes at `offset`. -/
def read_u64 (ins : List Nat) (offset : Nat) : Option Nat :=
  (readSlice ins offset 8).map beVal

/-- `read_u8` from src/code.rs (`read_uint8` at its vm.rs use sites):
the single byte at `offset`. -/
def read_u8 (ins : List Nat) (offset : Nat) : Option Nat :=
  ins[offset]?

/-- `read_bool` from src/code.rs: the byte at `offset`, compared to 0. -/
def read_bool (ins : List Nat) (offset : Nat) : Option Bool :=
  (ins[offset]?).map (fun b => b ≠ 0)

/-- One operand write of `make`: width 1 is `u8::try_from(o).unwrap()`
(panic — `none` — when the value does not fit), width 2 splices
`u16::try_from(o).unwrap().to_be_bytes()`, width 8 splices
`o.to_be_bytes()`; any other width leaves the preallocated zero bytes in
place (the `_ => {}` arm). -/
def encodeOperand (width o : Nat) : Option (List Nat) :=
  match width with
  | 1 => if o < 256 then some [o] else none
  | 2 => if o < 65536 then some (beBytes 2 o) else none
  | 8 => some (beBytes 8 o)
  | w => some (List.replicate w 0)

/-- The operand-byte region built by the loop of `make`: each given operand
is encoded at its width; widths with no matching operand keep their
preallocated zero bytes; an operand beyond the defined arity indexes
`operand_widths` out of bounds (panic). -/
def writeOperands : List Nat → List Nat → Option (List Nat)
  | [], ws => some (List.replicate ws.sum 0)
  | _ :: _, [] => none
  | o :: os, w :: ws => do
      let enc ← encodeOperand w o
      let rest ← writeOperands os ws
      some (enc ++ rest)

/-- `make(op, operands)` from src/code.rs: the opcode byte followed by the
big-endian encodings of the operands at the widths of the opcode's
definition. -/
def make (op : Opcode) (operands : List Nat) : Option (List Nat) :=
  (writeOperands operands (operandWidths op)).map (fun body => opByte op :: body)

/-- One operand read of `read_operands` (the `match *width` in its loop);
widths other than 1, 2, 8 leave the preallocated 0 in the result. -/
def readOperand (width : Nat) (ins : List Nat) (offset : Nat) : Option Nat :=
  match width with
  | 1 => read_u8 ins offset
  | 2 => read_u16 ins offset
  | 8 => read_u64 ins offset
  | _ => some 0

/-- The loop of `read_operands`, threading the running `offset`. -/
def readOperandsAux : List Nat → List Nat → Nat → Option (List Nat × Nat)
  | [], _, offset => some ([], offset)
  | w :: ws, ins, offset => do
      let o ← readOperand w ins offset
      let (os, fin) ← readOperandsAux ws ins (offset + w)
      some (o :: os, fin)

/-- `read_operands(def, ins)` from src/code.rs: decode one operand per
defined width and return them with the number of bytes read. -/
def read_operands (widths : List Nat) (ins : List Nat) : Option (List Nat × Nat) :=
  readOperandsAux widths ins 0

/-! ## Runtime value model (object module; shape as used by src/vm.rs) -/

/-- An `f64` payload, abstracted by the only observations the embedded
code makes of a float outside of the arithmetic delegated to `Ext`:
`is_nan()` and `== 0f64` (both used by `is_truthy`). -/
structure F64 where
  isNaN : Bool
  isZero : Bool
deriving DecidableEq, Repr

/-- The Hashable projection of an object (Int, Str, Char, Bool only). -/
inductive Hashable where
  | int (value : Int)
  | str (value : String)
  | char (value : Char)
  | bool (value : Bool)
deriving DecidableEq, Repr

/-- The tagged union `Object` as consumed by src/vm.rs.  `BigInt` is `Int`;
`RangeObject`'s three `isize` fields are `Int`; a closure is flattened to
its `CompiledFunctionObject` fields plus the captured upvalues; a builtin
carries its registry name, an abstract function identifier standing for the
function pointer, and its optional bound caller; an iterator carries the
wrapped source object with the `size`/`current` cursor of `IterObject`. -/
inductive Object where
  | int (value : Int)
  | float (value : F64)
  | bool (value : Bool)
  | char (value : Char)
  | str (value : String)
  | null
  | array (elements : List Object)
  | hash (pairs : List (Nat × Hashable × Object))
  | range (start stop step : Int)
  | error (message : String)
  | compiledFunction (instructions : List Nat) (numLocals numParameters : Nat)
  | closure (instructions : List Nat) (numLocals numParameters : Nat) (free : List Object)
  | builtin (name : String) (funcId : Nat) (caller : Option Object)
  | iter (src : Object) (size current : Nat)
deriving Repr

/-- The constant `TRUE` of src/vm.rs. -/
def TRUE : Object := .bool true

/-- The constant `FALSE` of src/vm.rs. -/
def FALSE : Object := .bool false

/-- The constant `NULL` of src/vm.rs. -/
def NULL : Object := .null

/-- Modelled from the spec: `Object::kind()` lives in the object module,
which is not under src/.  Section 7 of the spec shows the kind strings that
appear in error messages as the upper-cased variant names (ARRAY, STR,
INT, ...). -/
def objKind : Object → String
  | .int _ => "INT"
  | .float _ => "FLOAT"
  | .bool _ => "BOOL"
  | .char _ => "CHAR"
  | .str _ => "STR"
  | .null => "NULL"
  | .array _ => "ARRAY"
  | .hash _ => "HASH"
  | .range _ _ _ => "RANGE"
  | .error _ => "ERROR"
  | .compiledFunction _ _ _ => "FUNCTION"
  | .closure _ _ _ _ => "CLOSURE"
  | .builtin _ _ _ => "BUILTIN"
  | .iter _ _ _ => "ITER"

/-- Modelled from the spec: the `Display`/`Debug` rendering of an object
(object module, not under src/) used inside two error messages; the spec
only calls it `<repr>`, so a simple deterministic rendering is used. -/
def objDisplay : Object → String
  | .int v => toString v
  | .str v => v
  | .bool v => toString v
  | .char v => String.singleton v
  | .null => "null"
  | o => objKind o

/-- `Hashable::from_object`: succeeds exactly on Int, Str, Char, Bool. -/
def hashableFromObject : Object → Option Hashable
  | .int v => some (.int v)
  | .str v => some (.str v)
  | .char v => some (.char v)
  | .bool v => some (.bool v)
  | _ => none

/-- Modelled from the spec: `Iterable::from_object` (object module, not
under src/) — the Iterable capability exists for Array, Str, Range and
Hash values and for no others. -/
def iterableFromObject : Object → Option Object
  | .array es => some (.array es)
  | .str v => some (.str v)
  | .range a b c => some (.range a b c)
  | .hash ps => some (.hash ps)
  | _ => none

/-- `is_truthy` from src/vm.rs. -/
def is_truthy : Object → Bool
  | .null => false
  | .bool v => v
  | .int v => v ≠ 0
  | .str v => v ≠ ""
  | .char v => v ≠ Char.ofNat 0
  | .array es => !es.isEmpty
  | .hash ps => !ps.isEmpty
  | .float f => !(f.isNaN || f.isZero)
  | .error m => m ≠ ""
  | _ => true

/-- The closure data held by a frame
(`ClosureObject { func: CompiledFunctionObject, free }`, flattened). -/
structure ClosureData where
  instructions : List Nat
  numLocals : Nat
  numParameters : Nat
  free : List Object
deriving Repr

/-- The `Object::Closure` view of a `ClosureData`. -/
def ClosureData.toObject (c : ClosureData) : Object :=
  .closure c.instructions c.numLocals c.numParameters c.free

/-- `Frame` from the vm's frame module. -/
structure Frame where
  cl : ClosureData
  ip : Int
  bp : Nat
deriving Repr

/-- Modelled from the spec: `Frame::new(closure, bp)` (src/vm/frame.rs is
not under src/).  Spec section 3.5: a frame holds the closure, `bp`, and an
instruction pointer that "points at the last-executed opcode (−1 before
first fetch)". -/
def Frame.new (cl : ClosureData) (bp : Nat) : Frame :=
  { cl := cl, ip := -1, bp := bp }

/-- Code of the repository that lives outside src/ (the object module's
builtins registry, method table, float arithmetic, `PartialEq` and hash
implementations, `Iterable::count`/`get`).  The VM embedding is
parameterised over these; claims never depend on their behaviour. -/
structure Ext where
  builtins : List (String × Nat)
  builtinApply : Nat → Object → List Object → Object
  callMethod : Object → Nat → Option (List Object) → Object
  hashKey : Hashable → Nat
  iterCount : Object → Nat
  iterGet : Object → Nat → Object
  objEq : Object → Object → Bool
  fadd : F64 → F64 → F64
  fsub : F64 → F64 → F64
  fmul : F64 → F64 → F64
  fdiv : F64 → F64 → F64
  fneg : F64 → F64
  feq : F64 → F64 → Bool
  fne : F64 → F64 → Bool
  fgt : F64 → F64 → Bool
  fge : F64 → F64 → Bool

/-- A trivial instantiation of the external code, used to run concrete
programs whose execution never reaches any of it. -/
def extUnit : Ext where
  builtins := []
  builtinApply := fun _ _ _ => .null
  callMethod := fun _ _ _ => .null
  hashKey := fun _ => 0
  iterCount := fun _ => 0
  iterGet := fun _ _ => .null
  objEq := fun _ _ => false
  fadd := fun a _ => a
  fsub := fun a _ => a
  fmul := fun a _ => a
  fdiv := fun a _ => a
  fneg := fun a => a
  feq := fun _ _ => false
  fne := fun _ _ => false
  fgt := fun _ _ => false
  fge := fun _ _ => false

/-- `STACK_SIZE` from src/vm.rs. -/
def STACK_SIZE : Nat := 2048

/-- `GLOBAL_SIZE` from src/vm.rs (capacity hint for the globals vector). -/
def GLOBAL_SIZE : Nat := 65536

/-- `MAX_FRAMES` from src/vm.rs (capacity hint for the frame vector;
`push_frame` itself performs no bound check). -/
def MAX_FRAMES : Nat := 1024

/-- `VirtualMachine` from src/vm.rs. -/
structure VM where
  constants : List Object
  globals : List Object
  stack : List Object
  sp : Nat
  lastPopped : Option Object
  frames : List Frame
  framesIndex : Nat
deriving Repr

/-- `VirtualMachine::new(bytecode)`: the program becomes the main closure
of the single initial frame; the stack is 2048 `Null`s; globals start
empty (`Vec::with_capacity` allocates no elements). -/
def VM.new (instructions : List Nat) (constants : List Object) : VM where
  constants := constants
  globals := []
  stack := List.replicate STACK_SIZE .null
  sp := 0
  lastPopped := none
  frames := [Frame.new ⟨instructions, 0, 0, []⟩ 0]
  framesIndex := 1

/-! ## VM primitive operations (src/vm.rs) -/

/-- `stack_top`: `None` when the stack is empty, else the object below
`sp`. -/
def VM.stack_top (vm : VM) : Option Object :=
  if vm.sp = 0 then none else vm.stack[vm.sp - 1]?

/-- `push`: error `stack overflow` when `sp` has reached `STACK_SIZE`,
otherwise store at `sp` and increment `sp`.  The store `stack[sp] = o`
panics when `sp` is outside the backing vector (never the case for the
2048-element stack the constructor builds). -/
def VM.push (vm : VM) (o : Object) : Outcome VM :=
  if vm.sp ≥ STACK_SIZE then .err "stack overflow"
  else if vm.sp < vm.stack.length then
    .ok { vm with stack := vm.stack.set vm.sp o, sp := vm.sp + 1 }
  else .panic "index out of bounds"

/-- `pop`: reads `stack[sp - 1]`, decrements `sp`, records the object as
`last_popped_stack_elem`.  With `sp == 0` the index `sp - 1` underflows
(panic). -/
def VM.pop (vm : VM) : Outcome (Object × VM) :=
  if vm.sp = 0 then .panic "attempt to subtract with overflow"
  else
    match vm.stack[vm.sp - 1]? with
    | some obj => .ok (obj, { vm with sp := vm.sp - 1, lastPopped := some obj })
    | none => .panic "index out of bounds"

/-- Pop `n` objects; the returned list is in pop order (top of stack
first). -/
def VM.popN (vm : VM) : Nat → Outcome (List Object × VM)
  | 0 => .ok ([], vm)
  | n + 1 => do
    let (o, vm1) ← vm.pop
    let (os, vm2) ← vm1.popN n
    pure (o :: os, vm2)

/-- `dup`: copy the top of stack onto the stack top. -/
def VM.dup (vm : VM) : Outcome VM :=
  if vm.sp ≥ STACK_SIZE then .err "stack overflow"
  else if vm.sp = 0 then .panic "attempt to subtract with overflow"
  else
    match vm.stack[vm.sp - 1]? with
    | some obj =>
      if vm.sp < vm.stack.length then
        .ok { vm with stack := vm.stack.set vm.sp obj, sp := vm.sp + 1 }
      else .panic "index out of bounds"
    | none => .panic "index out of bounds"

/-- `current_frame`: `frames[frames_index - 1]`, `unwrap`-ing the lookup. -/
def VM.currentFrame (vm : VM) : Outcome Frame :=
  unwrapPanic (vm.frames[vm.framesIndex - 1]?)

/-- Replace the current frame (the effect of mutating through
`current_frame()`). -/
def VM.setFrame (vm : VM) (fr : Frame) : VM :=
  { vm with frames := vm.frames.set (vm.framesIndex - 1) fr }

/-- Add `k` to the current frame's `ip`. -/
def VM.bumpIp (vm : VM) (k : Int) : Outcome VM := do
  let fr ← vm.currentFrame
  pure (vm.setFrame { fr with ip := fr.ip + k })

/-- Set the current frame's `ip`. -/
def VM.setIp (vm : VM) (v : Int) : Outcome VM := do
  let fr ← vm.currentFrame
  pure (vm.setFrame { fr with ip := v })

/-- `push_frame`. -/
def VM.pushFrame (vm : VM) (f : Frame) : VM :=
  { vm with frames := vm.frames ++ [f], framesIndex := vm.framesIndex + 1 }

/-- `pop_frame`: decrement `frames_index` and `unwrap` the vector pop. -/
def VM.popFrame (vm : VM) : Outcome (Frame × VM) :=
  match vm.frames.getLast? with
  | some f =>
    .ok (f, { vm with frames := vm.frames.dropLast, framesIndex := vm.framesIndex - 1 })
  | none => .panic "unwrap of None"

/-- `Vec::remove` on the globals vector: panics when the index is out of
bounds, otherwise removes the element and shifts every later element one
slot down. -/
def globalsRemove (g : List Object) (idx : Nat) : Outcome (Object × List Object) :=
  match g[idx]? with
  | some removed => .ok (removed, g.eraseIdx idx)
  | none => .panic "removal index out of bounds"

/-- `BigInt::to_isize()`: `Some` exactly when the value fits a 64-bit
signed integer. -/
def toIsize (v : Int) : Option Int :=
  if -(2 ^ 63) ≤ v ∧ v < 2 ^ 63 then some v else none

/-- `BigInt::to_usize()`: `Some` exactly when the value fits a 64-bit
unsigned integer. -/
def toUsize (v : Int) : Option Nat :=
  if 0 ≤ v ∧ v < 2 ^ 64 then some v.toNat else none

/-- UTF-8 byte length of a string (Rust `str::len`). -/
def strByteLen (s : String) : Nat :=
  s.data.foldl (fun n c => n + c.utf8Size) 0

/-! ## Arithmetic, comparison, boolean operators (src/vm.rs) -/

/-- `execute_binary_int_operation`.  `BigInt` arithmetic: `/` truncates
toward zero and panics on a zero divisor; `>>` is an arithmetic (floor)
shift; the shift amount is `right.to_isize().unwrap()` (panic when `right`
does not fit, and a panic is used to model a negative shift amount).
There is no `Mod` arm: any opcode outside the nine listed ones is the
error `unknown integer operation`. -/
def execute_binary_int_operation (vm : VM) (op : Opcode) (left right : Int) :
    Outcome VM := do
  let value ←
    (match op with
      | .Add => pure (left + right)
      | .Sub => pure (left - right)
      | .Mul => pure (left * right)
      | .Div =>
        if right = 0 then .panic "attempt to divide by zero"
        else pure (left.tdiv right)
      | .BitXor => pure (Int.xor left right)
      | .BitAnd => pure (Int.land left right)
      | .BitOr => pure (Int.lor left right)
      | .Shr => do
        let n ← unwrapPanic (toIsize right)
        if n < 0 then .panic "attempt to shift by a negative amount"
        else pure (Int.fdiv left (2 ^ n.toNat))
      | .Shl => do
        let n ← unwrapPanic (toIsize right)
        if n < 0 then .panic "attempt to shift by a negative amount"
        else pure (left * 2 ^ n.toNat)
      | _ =>
        let o := opName op
        (.err s!"unknown integer operation: {o}" : Outcome Int))
  vm.push (.int value)

/-- `execute_binary_float_operation`: Add, Sub, Mul, Div via the (external)
`f64` arithmetic; anything else is `unknown float operation`. -/
def execute_binary_float_operation (E : Ext) (vm : VM) (op : Opcode)
    (left right : F64) : Outcome VM := do
  let value ←
    (match op with
      | .Add => pure (E.fadd left right)
      | .Sub => pure (E.fsub left right)
      | .Mul => pure (E.fmul left right)
      | .Div => pure (E.fdiv left right)
      | _ =>
        let o := opName op
        (.err s!"unknown float operation: {o}" : Outcome F64))
  vm.push (.float value)

/-- `execute_binary_string_operation`: only Add (concatenation). -/
def execute_binary_string_operation (vm : VM) (op : Opcode)
    (left right : String) : Outcome VM :=
  if op ≠ .Add then
    let o := opName op
    .err s!"unknown string operation: {o}"
  else vm.push (.str (left ++ right))

/-- `execute_binary_char_operation`: only Add (append the char to the
string). -/
def execute_binary_char_operation (vm : VM) (op : Opcode)
    (left : String) (right : Char) : Outcome VM :=
  if op ≠ .Add then
    let o := opName op
    .err s!"unknown string operation: {o}"
  else vm.push (.str (left ++ String.singleton right))

/-- `execute_binary_operation`: pop right then left and dispatch on the
pair of kinds; unsupported pairs are an error. -/
def execute_binary_operation (E : Ext) (vm : VM) (op : Opcode) : Outcome VM := do
  let (right, vm1) ← vm.pop
  let (left, vm2) ← vm1.pop
  match left, right with
  | .int l, .int r => execute_binary_int_operation vm2 op l r
  | .float l, .float r => execute_binary_float_operation E vm2 op l r
  | .str l, .str r => execute_binary_string_operation vm2 op l r
  | .str l, .char r => execute_binary_char_operation vm2 op l r
  | .char l, .char r => execute_binary_char_operation vm2 op (String.singleton l) r
  | _, _ =>
    let lk := objKind left
    let rk := objKind right
    let o := opName op
    .err s!"unsupported types for binary operation: {lk} {o} {rk}"

/-- `execute_int_comparison`. -/
def execute_int_comparison (vm : VM) (op : Opcode) (left right : Int) :
    Outcome VM := do
  let value ←
    (match op with
      | .Equal => pure (decide (left = right))
      | .NotEqual => pure (decide (left ≠ right))
      | .GreaterThan => pure (decide (right < left))
      | .GreaterThanEqual => pure (decide (right ≤ left))
      | _ =>
        let o := opName op
        (.err s!"unknown operator: {o}" : Outcome Bool))
  vm.push (if value then TRUE else FALSE)

/-- `execute_float_comparison` (ε-comparisons delegated to the external
`f64` operations). -/
def execute_float_comparison (E : Ext) (vm : VM) (op : Opcode)
    (left right : F64) : Outcome VM := do
  let value ←
    (match op with
      | .Equal => pure (E.feq left right)
      | .NotEqual => pure (E.fne left right)
      | .GreaterThan => pure (E.fgt left right)
      | .GreaterThanEqual => pure (E.fge left right)
      | _ =>
        let o := opName op
        (.err s!"unknown operator: {o}" : Outcome Bool))
  vm.push (if value then TRUE else FALSE)

/-- `execute_char_comparison`. -/
def execute_char_comparison (vm : VM) (op : Opcode) (left right : Char) :
    Outcome VM := do
  let value ←
    (match op with
      | .Equal => pure (decide (left = right))
      | .NotEqual => pure (decide (left ≠ right))
      | .GreaterThan => pure (decide (right < left))
      | .GreaterThanEqual => pure (decide (right ≤ left))
      | _ =>
        let o := opName op
        (.err s!"unknown operator: {o}" : Outcome Bool))
  vm.push (if value then TRUE else FALSE)

/-- `execute_comparison`: pop right then left; Int/Int, Float/Float and
Char/Char pairs go to the dedicated comparisons; every other pair supports
only `Equal` / `NotEqual` through the object `PartialEq` (external). -/
def execute_comparison (E : Ext) (vm : VM) (op : Opcode) : Outcome VM := do
  let (right, vm1) ← vm.pop
  let (left, vm2) ← vm1.pop
  match left, right with
  | .int l, .int r => execute_int_comparison vm2 op l r
  | .float l, .float r => execute_float_comparison E vm2 op l r
  | .char l, .char r => execute_char_comparison vm2 op l r
  | _, _ =>
    match op with
    | .Equal => vm2.push (if E.objEq left right then TRUE else FALSE)
    | .NotEqual => vm2.push (if E.objEq left right then FALSE else TRUE)
    | _ =>
      let o := opName op
      let lk := objKind left
      let rk := objKind right
      .err s!"unknown operator: {o} ({lk} {rk})"

/-- `execute_bang_operator`. -/
def execute_bang_operator (vm : VM) : Outcome VM := do
  let (operand, vm1) ← vm.pop
  if is_truthy operand then vm1.push FALSE else vm1.push TRUE

/-- `execute_minus_operator`. -/
def execute_minus_operator (E : Ext) (vm : VM) : Outcome VM := do
  let (operand, vm1) ← vm.pop
  match operand with
  | .int v => vm1.push (.int (-v))
  | .float v => vm1.push (.float (E.fneg v))
  | _ =>
    let k := objKind operand
    .err s!"unsupported type for negation: {k}"

/-- `execute_boolean_operator`: pop right then left; `And` keeps the right
operand when the left is truthy and the left otherwise, `Or` keeps the
left operand when it is truthy and the right otherwise; the chosen operand
object itself is pushed back.  Any other opcode is `unreachable!()`. -/
def execute_boolean_operator (vm : VM) (op : Opcode) : Outcome VM := do
  let (right, vm1) ← vm.pop
  let (left, vm2) ← vm1.pop
  let result ←
    (match op with
      | .And => pure (if is_truthy left then right else left)
      | .Or => pure (if is_truthy left then left else right)
      | _ => (.panic "internal error: entered unreachable code" : Outcome Object))
  vm2.push result

/-! ## Indexing and slicing (src/vm.rs) -/

/-- `exec_array_index_expression`: bounds-checked signed index. -/
def exec_array_index_expression (vm : VM) (array : List Object) (idx : Int) :
    Outcome VM :=
  let max : Int := (array.length : Int) - 1
  if idx < 0 ∨ idx > max then .err s!"index out of bounds. got: {idx}, max: {max}"
  else do
    let o ← idxPanic array[idx.toNat]?
    vm.push o

/-- `exec_string_index_expression`: `max` is computed from the byte length
before the bounds check (so the empty string underflows and panics); the
returned Char is found by code-point position (`chars().nth`), whose
`unwrap` panics when the byte-indexed bound admits `idx` but the string
has fewer code points. -/
def exec_string_index_expression (vm : VM) (s : String) (idx : Nat) :
    Outcome VM :=
  if strByteLen s = 0 then .panic "attempt to subtract with overflow"
  else
    let max := strByteLen s - 1
    if idx ≥ strByteLen s then .err s!"index out of bounds. got: {idx}, max: {max}"
    else do
      let c ← unwrapPanic s.data[idx]?
      vm.push (.char c)

/-- The `while i < stop` collection loop of `exec_array_slice_expression`.
`array[i as usize]` panics when `i` is negative (the cast wraps) or past
the end; `fuel` makes the possibly non-terminating walk total. -/
def arraySliceLoop (array : List Object) (stop step : Int) :
    Nat → Int → List Object → Outcome (List Object)
  | 0, _, _ => .outOfFuel
  | fuel + 1, i, acc =>
    if i < stop then
      match (if 0 ≤ i then array[i.toNat]? else none) with
      | some x => arraySliceLoop array stop step fuel (i + step) (acc ++ [x])
      | none => .panic "index out of bounds"
    else .ok acc

/-- `exec_array_slice_expression`: guard `start`, `stop` against
`0 ..= len − 1` and `start ≤ stop`, then walk `i = start; while i < stop;
i += step`, collecting `array[i]`. -/
def exec_array_slice_expression (vm : VM) (array : List Object)
    (start stop step : Int) (fuel : Nat) : Outcome VM :=
  let max : Int := (array.length : Int) - 1
  if start > max ∨ stop > max ∨ start < 0 ∨ stop < 0 ∨ start > stop then
    .err "cannot slice ARRAY using this range"
  else do
    let elements ← arraySliceLoop array stop step fuel start []
    vm.push (.array elements)

/-- The `while i < stop` loop of `exec_string_slice_expression`;
`chars().nth(i as usize).unwrap()` panics for a negative `i` (wrapping
cast) or an `i` beyond the last code point. -/
def strSliceLoop (s : String) (stop step : Int) :
    Nat → Int → String → Outcome String
  | 0, _, _ => .outOfFuel
  | fuel + 1, i, acc =>
    if i < stop then
      match (if 0 ≤ i then s.data[i.toNat]? else none) with
      | some c => strSliceLoop s stop step fuel (i + step) (acc.push c)
      | none => .panic "unwrap of None"
    else .ok acc

/-- `exec_string_slice_expression`: same guard as the array slice but with
the string's byte length. -/
def exec_string_slice_expression (vm : VM) (s : String)
    (start stop step : Int) (fuel : Nat) : Outcome VM :=
  let max : Int := (strByteLen s : Int) - 1
  if start > max ∨ stop > max ∨ start < 0 ∨ stop < 0 ∨ start > stop then
    .err "cannot slice STR using this range"
  else do
    let value ← strSliceLoop s stop step fuel start ""
    vm.push (.str value)

/-- `exec_hash_index_expression`: the key must be Hashable; lookup is by
64-bit hash key; a missing key is the `key error:` message quoting the
key's rendering. -/
def exec_hash_index_expression (E : Ext) (vm : VM)
    (pairs : List (Nat × Hashable × Object)) (index : Object) : Outcome VM :=
  match hashableFromObject index with
  | none =>
    let k := objKind index
    .err s!"unusable as hash key: {k}"
  | some h =>
    match pairs.find? (fun p => p.1 == E.hashKey h) with
    | some p => vm.push p.2.2
    | none =>
      let q := String.singleton (Char.ofNat 39)
      let d := objDisplay index
      .err s!"key error: no entry found for key {q}{d}{q}"

/-- `execute_index_expression`: dispatch on the (container, index) kinds.
For `Array[Int]` the index is `BigInt::to_isize().unwrap()`; for
`Str[Int]` it is `to_usize().unwrap()` (panic on negative values). -/
def execute_index_expression (E : Ext) (vm : VM) (left index : Object)
    (fuel : Nat) : Outcome VM :=
  match left, index with
  | .array elements, .int v => do
    let idx ← unwrapPanic (toIsize v)
    exec_array_index_expression vm elements idx
  | .str s, .int v => do
    let idx ← unwrapPanic (toUsize v)
    exec_string_index_expression vm s idx
  | .array elements, .range start stop step =>
    exec_array_slice_expression vm elements start stop step fuel
  | .str s, .range start stop step =>
    exec_string_slice_expression vm s start stop step fuel
  | .hash pairs, _ => exec_hash_index_expression E vm pairs index
  | _, _ =>
    let lk := objKind left
    let ik := objKind index
    .err s!"index operator not supported: {lk}[{ik}]"

/-! ## Literals, ranges, calls, methods, iteration (src/vm.rs) -/

/-- HashMap insertion keyed by the 64-bit hash: replace an existing entry
with the same key, otherwise add the pair. -/
def insertHashPair (pairs : List (Nat × Hashable × Object)) (k : Nat)
    (h : Hashable) (v : Object) : List (Nat × Hashable × Object) :=
  if pairs.any (fun p => p.1 == k) then
    pairs.map (fun p => if p.1 == k then (k, h, v) else p)
  else pairs ++ [(k, h, v)]

/-- The pair-popping loop of `exec_hash_literal`: pop value then key, fail
on an unhashable key. -/
def hashLiteralLoop (E : Ext) (vm : VM) :
    Nat → List (Nat × Hashable × Object) →
    Outcome (List (Nat × Hashable × Object) × VM)
  | 0, pairs => .ok (pairs, vm)
  | n + 1, pairs => do
    let (value, vm1) ← vm.pop
    let (key, vm2) ← vm1.pop
    match hashableFromObject key with
    | none =>
      let k := objKind key
      .err s!"unusable as hash key: {k}"
    | some h => hashLiteralLoop E vm2 n (insertHashPair pairs (E.hashKey h) h value)

/-- `exec_hash_literal`: advances `ip` past the u16 operand, pops
`num_pairs` (value, key) pairs, pushes the Hash. -/
def exec_hash_literal (E : Ext) (vm : VM) (numPairs : Nat) : Outcome VM := do
  let vm1 ← vm.bumpIp 2
  let (pairs, vm2) ← hashLiteralLoop E vm1 numPairs []
  vm2.push (.hash pairs)

/-- `exec_method_expression`: pop `num_args` arguments (restored to source
order by the `reverse`), pop the caller, dispatch through the external
built-in method table, push the result. -/
def exec_method_expression (E : Ext) (vm : VM) (numArgs methodIdx : Nat)
    (hasArguments : Bool) : Outcome VM := do
  let (args, vm1) ← vm.popN numArgs
  let argsInOrder := args.reverse
  let (caller, vm2) ← vm1.pop
  let ret := E.callMethod caller methodIdx (if hasArguments then some argsInOrder else none)
  vm2.push ret

/-- `exec_range`: pop `stop` then `start`, both required Int.  When
`has_step` is TRUE the step is defaulted to ±1 from the comparison of
`start` and `stop` and nothing further is popped; when it is FALSE a third
value is popped and used as the step (this is what the source's
`if has_step` does, and C3 examines it).  The endpoints go through
`to_isize().unwrap()`. -/
def exec_range (vm : VM) (hasStep : Bool) : Outcome VM := do
  let (stopObj, vm1) ← vm.pop
  let (startObj, vm2) ← vm1.pop
  let (startV, vm3) ←
    (match startObj with
      | .int v => pure (v, vm2)
      | _ =>
        let k := objKind startObj
        (.err s!"cannot use {k} as step in range. expected: INT" :
          Outcome (Int × VM)))
  let (stopV, vm4) ←
    (match stopObj with
      | .int v => pure (v, vm3)
      | _ =>
        let k := objKind stopObj
        (.err s!"cannot use {k} as step in range. expected: INT" :
          Outcome (Int × VM)))
  let (step, vm5) ←
    (if hasStep then
      pure ((if stopV < startV then (-1 : Int) else 1), vm4)
    else do
      let (stepObj, vmA) ← vm4.pop
      match stepObj with
      | .int v => do
        let s ← unwrapPanic (toIsize v)
        pure (s, vmA)
      | _ =>
        let k := objKind stepObj
        (.err s!"cannot use {k} as step in range. expected: INT" :
          Outcome (Int × VM)))
  let startI ← unwrapPanic (toIsize startV)
  let stopI ← unwrapPanic (toIsize stopV)
  vm5.push (.range startI stopI step)

/-- `call_closure`: arity check against `num_parameters`, then a new frame
at `bp = sp − num_args` and `sp = bp + num_locals`. -/
def call_closure (vm : VM) (cl : ClosureData) (numArgs : Nat) : Outcome VM :=
  if numArgs ≠ cl.numParameters then
    let want := cl.numParameters
    .err s!"wrong number of arguments. got: {numArgs}, want: {want}"
  else
    let frame := Frame.new cl (vm.sp - numArgs)
    let vm1 := vm.pushFrame frame
    .ok { vm1 with sp := frame.bp + cl.numLocals }

/-- `call_builtin`: the arguments are the slice `stack[sp − nargs .. sp]`;
`sp` drops below the callee; the external function's result is pushed. -/
def call_builtin (E : Ext) (vm : VM) (funcId : Nat) (caller : Object)
    (numArgs : Nat) : Outcome VM := do
  if vm.sp ≤ vm.stack.length ∧ numArgs ≤ vm.sp then
    let args := (vm.stack.drop (vm.sp - numArgs)).take numArgs
    if vm.sp < numArgs + 1 then .panic "attempt to subtract with overflow"
    else
      let vm1 := { vm with sp := vm.sp - numArgs - 1 }
      vm1.push (E.builtinApply funcId caller args)
  else .panic "index out of bounds"

/-- `exec_call`: the callee sits below the arguments at
`stack[sp − 1 − num_args]`; dispatch on closure vs builtin. -/
def exec_call (E : Ext) (vm : VM) (numArgs : Nat) : Outcome VM :=
  if vm.sp < numArgs + 1 then .panic "attempt to subtract with overflow"
  else do
    let callee ← idxPanic vm.stack[vm.sp - 1 - numArgs]?
    match callee with
    | .closure ins nl np free => call_closure vm ⟨ins, nl, np, free⟩ numArgs
    | .builtin _ funcId caller =>
      call_builtin E vm funcId (caller.getD NULL) numArgs
    | _ =>
      let k := objKind callee
      .err s!"calling non-function and non-builtin: {k}"

/-- `push_closure`: the constant must be a CompiledFunction; `num_free`
upvalues are copied from below `sp`, `sp` drops by `num_free`, and the
closure is pushed. -/
def push_closure (vm : VM) (constIdx numFree : Nat) : Outcome VM := do
  let constant ← idxPanic vm.constants[constIdx]?
  match constant with
  | .compiledFunction ins nl np =>
    if numFree = 0 then
      vm.push (.closure ins nl np [])
    else if numFree ≤ vm.sp ∧ vm.sp ≤ vm.stack.length then
      let free := (vm.stack.drop (vm.sp - numFree)).take numFree
      let vm1 := { vm with sp := vm.sp - numFree }
      vm1.push (.closure ins nl np free)
    else .panic "index out of bounds"
  | _ =>
    let d := objDisplay constant
    .err s!"not a function: {d}"

/-! ## The dispatch loop (src/vm.rs, `run`) -/

/-- One iteration of the `while` body of `run`: pre-increment `ip`, fetch
and decode the opcode at the new `ip`, then execute its arm.  `fuel`
bounds only the inner slice-walking loops.  The arms for `Mod`, `Scope`,
`Constructor`, `ClassMember` and `String` do not exist in the source: they
fall into the `_ => todo!()` catch-all, a panic.  (The source names the
push-literal arm `Opcode::Null` and the dict arm `Opcode::Hash`; the enum
in src/code.rs names those opcodes `Nil` and `Dict`.) -/
def stepOnce (E : Ext) (fuel : Nat) (vm0 : VM) : Outcome VM := do
  let fr ← vm0.currentFrame
  let ipNew := fr.ip + 1
  let vm := vm0.setFrame { fr with ip := ipNew }
  if ipNew < 0 then .panic "index out of bounds"
  else
    let ip := ipNew.toNat
    let ins := fr.cl.instructions
    let byte ← idxPanic ins[ip]?
    let op ←
      (match opcodeOfNat byte with
        | some op => pure op
        | none =>
          (.err s!"No discriminant in enum Opcode matches the value {byte}" :
            Outcome Opcode))
    match op with
    | .Constant => do
      let constIdx ← idxPanic (read_u16 ins (ip + 1))
      let vm1 ← vm.bumpIp 2
      let c ← idxPanic vm1.constants[constIdx]?
      vm1.push c
    | .Add | .Sub | .Mul | .Div | .BitXor | .BitAnd | .BitOr | .Shl | .Shr =>
      execute_binary_operation E vm op
    | .Pop => do
      let (_, vm1) ← vm.pop
      pure vm1
    | .PopNoRet => do
      let (_, vm1) ← vm.pop
      pure { vm1 with lastPopped := none }
    | .True => vm.push TRUE
    | .False => vm.push FALSE
    | .Nil => vm.push NULL
    | .Equal | .GreaterThan | .GreaterThanEqual | .NotEqual =>
      execute_comparison E vm op
    | .Bang => execute_bang_operator vm
    | .Minus => execute_minus_operator E vm
    | .And | .Or => execute_boolean_operator vm op
    | .Jump => do
      let pos ← idxPanic (read_u16 ins (ip + 1))
      vm.setIp ((pos : Int) - 1)
    | .JumpNotTruthy => do
      let pos ← idxPanic (read_u16 ins (ip + 1))
      let vm1 ← vm.bumpIp 2
      let (condition, vm2) ← vm1.pop
      if !is_truthy condition then vm2.setIp ((pos : Int) - 1) else pure vm2
    | .SetGlobal => do
      let globalIdx ← idxPanic (read_u16 ins (ip + 1))
      let vm1 ← vm.bumpIp 2
      let (obj, vm2) ← vm1.pop
      if globalIdx ≥ vm2.globals.length then
        pure { vm2 with globals := vm2.globals ++ [obj] }
      else
        pure { vm2 with globals := vm2.globals.set globalIdx obj }
    | .GetGlobal => do
      let globalIdx ← idxPanic (read_u16 ins (ip + 1))
      let vm1 ← vm.bumpIp 2
      let obj ← idxPanic vm1.globals[globalIdx]?
      vm1.push obj
    | .Array => do
      let numElements ← idxPanic (read_u16 ins (ip + 1))
      let vm1 ← vm.bumpIp 2
      let (elements, vm2) ← vm1.popN numElements
      vm2.push (.array elements.reverse)
    | .Dict => do
      let numPairs ← idxPanic (read_u16 ins (ip + 1))
      exec_hash_literal E vm numPairs
    | .Index => do
      let (index, vm1) ← vm.pop
      let (left, vm2) ← vm1.pop
      execute_index_expression E vm2 left index fuel
    | .Range => do
      let hasStep ← idxPanic (read_bool ins (ip + 1))
      let vm1 ← vm.bumpIp 1
      exec_range vm1 hasStep
    | .Call => do
      let numArgs ← idxPanic (read_u8 ins (ip + 1))
      let vm1 ← vm.bumpIp 1
      exec_call E vm1 numArgs
    | .ReturnValue => do
      let (returnValue, vm1) ← vm.pop
      let (frame, vm2) ← vm1.popFrame
      if frame.bp = 0 then .panic "attempt to subtract with overflow"
      else
        let vm3 := { vm2 with sp := frame.bp - 1 }
        vm3.push returnValue
    | .Return => do
      let (frame, vm1) ← vm.popFrame
      if frame.bp = 0 then .panic "attempt to subtract with overflow"
      else
        let vm2 := { vm1 with sp := frame.bp - 1 }
        vm2.push NULL
    | .SetLocal => do
      let localIndex ← idxPanic (read_u8 ins (ip + 1))
      let vm1 ← vm.bumpIp 1
      let fr1 ← vm1.currentFrame
      let (obj, vm2) ← vm1.pop
      if fr1.bp + localIndex < vm2.stack.length then
        pure { vm2 with stack := vm2.stack.set (fr1.bp + localIndex) obj }
      else .panic "index out of bounds"
    | .GetLocal => do
      let localIndex ← idxPanic (read_u8 ins (ip + 1))
      let vm1 ← vm.bumpIp 1
      let fr1 ← vm1.currentFrame
      let obj ← idxPanic vm1.stack[fr1.bp + localIndex]?
      vm1.push obj
    | .GetBuiltin => do
      let builtinIdx ← idxPanic (read_u8 ins (ip + 1))
      let vm1 ← vm.bumpIp 1
      let entry ← idxPanic E.builtins[builtinIdx]?
      vm1.push (.builtin entry.1 entry.2 none)
    | .Closure => do
      let constIdx ← idxPanic (read_u16 ins (ip + 1))
      let numFree ← idxPanic (read_u8 ins (ip + 3))
      let vm1 ← vm.bumpIp 3
      push_closure vm1 constIdx numFree
    | .GetFree => do
      let freeIdx ← idxPanic (read_u8 ins (ip + 1))
      let vm1 ← vm.bumpIp 1
      let fr1 ← vm1.currentFrame
      let obj ← idxPanic fr1.cl.free[freeIdx]?
      vm1.push obj
    | .CurrentClosure => do
      let fr1 ← vm.currentFrame
      vm.push fr1.cl.toObject
    | .Dup => vm.dup
    | .Method => do
      let methodIdx ← idxPanic (read_u8 ins (ip + 1))
      let hasArguments ← idxPanic (read_bool ins (ip + 2))
      let numArgs ← idxPanic (read_u8 ins (ip + 3))
      let vm1 ← vm.bumpIp 3
      exec_method_expression E vm1 numArgs methodIdx hasArguments
    | .Start => do
      let (iterObj, vm1) ← vm.pop
      match iterableFromObject iterObj with
      | none =>
        let k := objKind iterObj
        .err s!"{k} is not iterable"
      | some it => vm1.push (.iter it (E.iterCount it) 0)
    | .Next => do
      let (o, vm1) ← vm.pop
      match o with
      | .iter src size current => do
        let vm2 ← vm1.push (.iter src size (current + 1))
        vm2.push (E.iterGet src current)
      | _ => .err "Object is not an iterator"
    | .JumpEnd => do
      let jumpPos ← idxPanic (read_u16 ins (ip + 1))
      let symbolIdx ← idxPanic (read_u16 ins (ip + 3))
      let vm1 ← vm.bumpIp 4
      match vm1.stack_top with
      | none => .panic "unwrap of None"
      | some top =>
        match top with
        | .iter _ size current =>
          if current ≥ size then do
            let (_, vm2) ← vm1.pop
            let vm3 ← vm2.setIp ((jumpPos : Int) - 1)
            let (_, globals') ← globalsRemove vm3.globals symbolIdx
            pure { vm3 with globals := globals' }
          else pure vm1
        | _ => .err "Object is not an iterator"
    | .Delete => do
      let index ← idxPanic (read_u16 ins (ip + 1))
      let vm1 ← vm.bumpIp 2
      let (removed, globals') ← globalsRemove vm1.globals index
      pure { vm1 with globals := globals', lastPopped := some removed }
    | _ => .panic "not yet implemented"

/-- The `while` loop of `run`: as long as the current frame's `ip` is
short of the last instruction index, run one step.  The loop guard
compares against `(instructions.len() − 1) as isize` (for an empty
instruction stream the release-mode wraparound gives −1, which is how it
is modelled). -/
def run (E : Ext) : Nat → VM → Outcome VM
  | 0, _ => .outOfFuel
  | fuel + 1, vm => do
    let fr ← vm.currentFrame
    if fr.ip < (fr.cl.instructions.length : Int) - 1 then do
      let vm1 ← stepOnce E fuel vm
      run E fuel vm1
    else pure vm

/-! ## Lemmas about the instruction encoding -/

theorem beBytes_length (n : Nat) : ∀ o, (beBytes n o).length = n := by
  induction n with
  | zero => intro o; simp [beBytes]
  | succ n ih => intro o; simp [beBytes, ih]

theorem beVal_append_singleton (xs : List Nat) (b : Nat) :
    beVal (xs ++ [b]) = 256 * beVal xs + b := by
  simp [beVal, List.foldl_append]

theorem beVal_beBytes (n : Nat) : ∀ o, beVal (beBytes n o) = o % 256 ^ n := by
  induction n with
  | zero => intro o; simp [beBytes, beVal, Nat.mod_one]
  | succ n ih =>
    intro o
    rw [beBytes, beVal_append_singleton, ih]
    rw [pow_succ' 256 n, Nat.mod_mul]
    omega

theorem readSlice_append_middle (pre mid post : List Nat) (n : Nat)
    (h : mid.length = n) :
    readSlice (pre ++ mid ++ post) pre.length n = some mid := by
  subst h
  rw [readSlice, if_pos]
  · rw [List.append_assoc, List.drop_left, List.take_left]
  · simp [List.length_append]

theorem getElem?_append_middle (pre post : List Nat) (x : Nat) :
    (pre ++ [x] ++ post)[pre.length]? = some x := by
  rw [List.append_assoc, List.getElem?_append_right (Nat.le_refl _)]
  simp

theorem readOperand_encodeOperand (w o : Nat)
    (hw : w = 1 ∨ w = 2 ∨ w = 8) (hfit : o < 2 ^ (8 * w))
    (enc : List Nat) (henc : encodeOperand w o = some enc)
    (pre post : List Nat) :
    readOperand w (pre ++ enc ++ post) pre.length = some o := by
  rcases hw with h1 | h2 | h8
  · subst h1
    rw [encodeOperand, if_pos (by simpa using hfit)] at henc
    obtain rfl : [o] = enc := by
      simpa using henc
    rw [readOperand, read_u8, getElem?_append_middle]
  · subst h2
    rw [encodeOperand] at henc
    rw [if_pos (by simpa using hfit)] at henc
    obtain rfl : beBytes 2 o = enc := by simpa using henc
    rw [readOperand, read_u16,
      readSlice_append_middle pre _ post 2 (beBytes_length 2 o)]
    have hb : o < 256 ^ 2 := by
      have := hfit
      norm_num at this ⊢
      omega
    have hv : beVal (beBytes 2 o) = o := by
      rw [beVal_beBytes]
      exact Nat.mod_eq_of_lt hb
    simp [hv]
  · subst h8
    obtain rfl : beBytes 8 o = enc := by
      simpa [encodeOperand] using henc
    rw [readOperand, read_u64,
      readSlice_append_middle pre _ post 8 (beBytes_length 8 o)]
    have hb : o < 256 ^ 8 := by
      have := hfit
      norm_num at this ⊢
      omega
    have hv : beVal (beBytes 8 o) = o := by
      rw [beVal_beBytes]
      exact Nat.mod_eq_of_lt hb
    simp [hv]

theorem encodeOperand_length_of_shape (w o : Nat)
    (hw : w = 1 ∨ w = 2 ∨ w = 8) (hfit : o < 2 ^ (8 * w))
    (enc : List Nat) (henc : encodeOperand w o = some enc) :
    enc.length = w := by
  rcases hw with h | h | h <;> subst h
  · rw [encodeOperand, if_pos (by simpa using hfit)] at henc
    obtain rfl : [o] = enc := by simpa using henc
    rfl
  · rw [encodeOperand, if_pos (by simpa using hfit)] at henc
    obtain rfl : beBytes 2 o = enc := by simpa using henc
    exact beBytes_length 2 o
  · obtain rfl : beBytes 8 o = enc := by simpa [encodeOperand] using henc
    exact beBytes_length 8 o

/-- Validity of one operand against its defined width: the width is one of
the three the encoder handles, and the value is representable in it. -/
def OperandFits (o w : Nat) : Prop :=
  (w = 1 ∨ w = 2 ∨ w = 8) ∧ o < 2 ^ (8 * w)

theorem writeOperands_isSome (os ws : List Nat)
    (h : List.Forall₂ OperandFits os ws) :
    ∃ body, writeOperands os ws = some body := by
  induction h with
  | nil => exact ⟨[], rfl⟩
  | @cons o w os ws hpair htail ih =>
    obtain ⟨body, hbody⟩ := ih
    obtain ⟨hw, hfit⟩ := hpair
    have henc : ∃ enc, encodeOperand w o = some enc := by
      rcases hw with h | h | h <;> subst h
      · exact ⟨[o], by rw [encodeOperand, if_pos (by simpa using hfit)]⟩
      · exact ⟨beBytes 2 o, by rw [encodeOperand, if_pos (by simpa using hfit)]⟩
      · exact ⟨beBytes 8 o, rfl⟩
    obtain ⟨enc, henc⟩ := henc
    exact ⟨enc ++ body, by rw [writeOperands, henc, hbody]; rfl⟩

theorem readOperandsAux_writeOperands (os ws : List Nat)
    (h : List.Forall₂ OperandFits os ws) :
    ∀ body, writeOperands os ws = some body →
    ∀ pre post : List Nat,
      readOperandsAux ws (pre ++ body ++ post) pre.length =
        some (os, pre.length + ws.sum) := by
  induction h with
  | nil =>
    intro body hbody pre post
    obtain rfl : ([] : List Nat) = body := by
      simpa [writeOperands] using hbody
    simp [readOperandsAux]
  | @cons o w os ws hpair htail ih =>
    intro body hbody pre post
    obtain ⟨hw, hfit⟩ := hpair
    rw [writeOperands] at hbody
    cases henc : encodeOperand w o with
    | none => rw [henc] at hbody; exact absurd hbody (by simp [Bind.bind])
    | some enc =>
      rw [henc] at hbody
      cases hrest : writeOperands os ws with
      | none => rw [hrest] at hbody; exact absurd hbody (by simp [Bind.bind])
      | some rest =>
        rw [hrest] at hbody
        obtain rfl : enc ++ rest = body := by
          simpa [Bind.bind] using hbody
        have hlen : enc.length = w :=
          encodeOperand_length_of_shape w o hw hfit enc henc
        have hread : readOperand w (pre ++ (enc ++ rest) ++ post) pre.length =
            some o := by
          have : pre ++ (enc ++ rest) ++ post = pre ++ enc ++ (rest ++ post) := by
            simp [List.append_assoc]
          rw [this]
          exact readOperand_encodeOperand w o hw hfit enc henc pre (rest ++ post)
        have htailread :
            readOperandsAux ws (pre ++ (enc ++ rest) ++ post) (pre.length + w) =
              some (os, pre.length + w + ws.sum) := by
          have hw1 : pre.length + w = (pre ++ enc).length := by
            simp [List.length_append, hlen]
          have hl1 : pre ++ (enc ++ rest) ++ post = (pre ++ enc) ++ rest ++ post := by
            simp [List.append_assoc]
          rw [hw1, hl1, ih rest hrest (pre ++ enc) post]
        rw [readOperandsAux, hread]
        simp only [Bind.bind]
        rw [htailread]
        have hsum : pre.length + w + ws.sum = pre.length + (w + ws.sum) := by omega
        simp [List.sum_cons, hsum]

theorem operandWidths_shape (op : Opcode) :
    ∀ w ∈ operandWidths op, w = 1 ∨ w = 2 ∨ w = 8 := by
  cases op <;> decide

theorem forall₂_operandFits (os ws : List Nat)
    (h : List.Forall₂ (fun o w => o < 2 ^ (8 * w)) os ws)
    (hshape : ∀ w ∈ ws, w = 1 ∨ w = 2 ∨ w = 8) :
    List.Forall₂ OperandFits os ws := by
  induction h with
  | nil => exact .nil
  | @cons o w os ws hpair htail ih =>
    exact .cons ⟨hshape w (by simp), hpair⟩
      (ih (fun u hu => hshape u (by simp [hu])))

/-! ## Concrete-evaluation helpers for the claim theorems -/

/-- A VM in the middle of execution: the given objects are the live bottom
of the stack, a single frame runs the given instruction stream (its `ip`
still at the initial −1).  The backing stack is given a few spare `Null`
slots rather than the constructor's full 2048 — the store in `push` only
needs the touched slot to exist, and none of the concrete executions below
comes anywhere near the `STACK_SIZE` bound, which `push` checks against
`sp` alone. -/
def vmOfStack (os : List Object) (ins : List Nat) (consts : List Object) : VM :=
  { constants := consts
    globals := []
    stack := os ++ List.replicate 8 .null
    sp := os.length
    lastPopped := none
    frames := [Frame.new ⟨ins, 0, 0, []⟩ 0]
    framesIndex := 1 }

/-- Projection: the stack top of a successfully returned VM. -/
def outcomeStackTop (r : Outcome VM) : Option Object :=
  match r with
  | .ok v => v.stack_top
  | _ => none

/-- Projection: the stack slot `i` of a successfully returned VM. -/
def outcomeStackAt (r : Outcome VM) (i : Nat) : Option Object :=
  match r with
  | .ok v => v.stack[i]?
  | _ => none

/-- Projection: the `sp` of a successfully returned VM. -/
def outcomeSp (r : Outcome VM) : Option Nat :=
  match r with
  | .ok v => some v.sp
  | _ => none

/-- Projection: the globals of a successfully returned VM. -/
def outcomeGlobals (r : Outcome VM) : Option (List Object) :=
  match r with
  | .ok v => some v.globals
  | _ => none

/-- Projection: the current frame's `ip` of a successfully returned VM. -/
def outcomeFrameIp (r : Outcome VM) : Option Int :=
  match r with
  | .ok v => (v.frames[v.framesIndex - 1]?).map Frame.ip
  | _ => none

/-- Bytecode of a three-global program probing index stability:
`Constant 0; SetGlobal 0; Constant 1; SetGlobal 1; Constant 2;
SetGlobal 2; Delete 0; GetGlobal 1`. -/
def deleteShiftProgram : List Nat :=
  [0, 0, 0, 28, 0, 0, 0, 0, 1, 28, 0, 1, 0, 0, 2, 28, 0, 2, 46, 0, 0, 27, 0, 1]

/-- The same program cut before the `Delete`, to observe which global each
index was assigned. -/
def assignOnlyProgram : List Nat :=
  [0, 0, 0, 28, 0, 0, 0, 0, 1, 28, 0, 1, 0, 0, 2, 28, 0, 2]

/-- The constant pool for the two globals programs. -/
def abcConstants : List Object := [.str "a", .str "b", .str "c"]

theorem outcome_pure {α : Type} (a : α) : (pure a : Outcome α) = .ok a := rfl

theorem outcome_bind_ok {α β : Type} (a : α) (f : α → Outcome β) :
    (Outcome.ok a >>= f) = f a := rfl

theorem outcome_bind_err {α β : Type} (s : String) (f : α → Outcome β) :
    (Outcome.err s >>= f) = .err s := rfl

theorem outcome_bind_panic {α β : Type} (s : String) (f : α → Outcome β) :
    (Outcome.panic s >>= f) = .panic s := rfl

theorem pop_spec (vm : VM) (x : Object) (h : vm.sp ≠ 0)
    (hx : vm.stack[vm.sp - 1]? = some x) :
    vm.pop = .ok (x, { vm with sp := vm.sp - 1, lastPopped := some x }) := by
  rw [VM.pop, if_neg h, hx]

/-! ## The claims -/

/-- C1: the spec requires `Mod` to pop two Ints and push `left mod right`,
but the dispatch loop of `run` has no `Mod` arm at all — the opcode falls
into the `_ => todo!()` catch-all and panics — and
`execute_binary_int_operation` would reject it as
`unknown integer operation: Mod` even if it were routed there. -/
theorem C1_mod_opcode_unimplemented :
    stepOnce extUnit 10 (vmOfStack [.int 5, .int 3] [opByte .Mod] []) =
      .panic "not yet implemented" ∧
    execute_binary_int_operation (vmOfStack [] [] []) .Mod 5 3 =
      .err "unknown integer operation: Mod" :=
  ⟨rfl, rfl⟩

/-- C2 counterexample: global indices are not stable across a `Delete` of
another global.  The program assigns globals 0, 1, 2 the strings "a", "b",
"c" (first run, without the deletion, shows index 1 holds "b"); after
`Delete 0`, `GetGlobal 1` yields "c", not the "b" that was assigned slot
1. -/
theorem C2_counterexample_delete_shifts_indices :
    outcomeGlobals (run extUnit 20 (vmOfStack [] assignOnlyProgram abcConstants)) =
      some [.str "a", .str "b", .str "c"] ∧
    outcomeStackTop (run extUnit 20 (vmOfStack [] deleteShiftProgram abcConstants)) =
      some (.str "c") ∧
    Object.str "c" ≠ Object.str "b" :=
  ⟨rfl, rfl, by
    intro h
    injection h with h1
    exact absurd h1 (by decide)⟩

/-- C2 (amended): global indices are stable only while no `Delete` or
`JumpEnd` cleanup removes a global at an index `≤ i`: the removal
(`Vec::remove`) keeps every slot below the removed index and shifts every
slot above it down by one, so a later access at an index at or above the
removal point refers to the next variable's slot. -/
theorem C2_amended_remove_shifts (g : List Object) (j i : Nat)
    (hj : j < g.length) (hij : j ≤ i) :
    ∃ removed g', globalsRemove g j = .ok (removed, g') ∧
      g'[i]? = g[i + 1]? ∧ ∀ k, k < j → g'[k]? = g[k]? := by
  refine ⟨g[j], g.eraseIdx j, ?_, ?_, ?_⟩
  · rw [globalsRemove, List.getElem?_eq_getElem hj]
  · rw [List.getElem?_eraseIdx, if_neg (by omega)]
  · intro k hk
    rw [List.getElem?_eraseIdx, if_pos hk]

/-- Witness for the amended C2 theorem at `g = [a, b, c]`, `j = 0`,
`i = 1`. -/
theorem C2_amended_remove_shifts_witness :
    (0 : Nat) < abcConstants.length ∧ (0 : Nat) ≤ 1 ∧
    (∃ removed g', globalsRemove abcConstants 0 = .ok (removed, g') ∧
      g'[1]? = abcConstants[1 + 1]? ∧ ∀ k, k < 0 → g'[k]? = abcConstants[k]?) :=
  ⟨by simp [abcConstants], by omega,
    C2_amended_remove_shifts abcConstants 0 1 (by simp [abcConstants]) (by omega)⟩

/-- C3: the `has_step` flag of the Range opcode is handled inverted by
`exec_range`.  With the stack holding (bottom to top) step 7, start 0,
stop 5: `has_step = 1` pops only stop and start and pushes
`Range {0, 5, step 1}` (the ±1 default), leaving the 7 on the stack, while
`has_step = 0` pops a third value and pushes `Range {0, 5, step 7}` —
exactly opposite to the claim. -/
theorem C3_range_step_flag_inverted :
    outcomeSp (exec_range (vmOfStack [.int 7, .int 0, .int 5] [] []) true) =
      some 2 ∧
    outcomeStackAt (exec_range (vmOfStack [.int 7, .int 0, .int 5] [] []) true) 1 =
      some (.range 0 5 1) ∧
    outcomeSp (exec_range (vmOfStack [.int 7, .int 0, .int 5] [] []) false) =
      some 1 ∧
    outcomeStackAt (exec_range (vmOfStack [.int 7, .int 0, .int 5] [] []) false) 0 =
      some (.range 0 5 7) ∧
    Object.range 0 5 1 ≠ Object.range 0 5 7 :=
  ⟨rfl, rfl, rfl, rfl, by
    intro h
    injection h with h1 h2 h3
    exact absurd h3 (by decide)⟩

/-- C4: the Method instruction is defined (DEFINITIONS, and the spec) with
operand widths 8 + 1 + 1, so `make` emits 10 operand bytes, but the
dispatch arm reads three single bytes and advances `ip` by only 3:
starting from `ip = −1`, the post-execution `ip` is 3 instead of
`−1 + 1 + 10 = 10`. -/
theorem C4_method_operand_width_mismatch :
    make .Method [7, 1, 0] = some [42, 0, 0, 0, 0, 0, 0, 0, 7, 1, 0] ∧
    outcomeFrameIp (stepOnce extUnit 10
      (vmOfStack [.int 1] [42, 0, 0, 0, 0, 0, 0, 0, 7, 1, 0] [])) = some 3 ∧
    (operandWidths .Method).sum = 10 ∧
    (3 : Int) ≠ -1 + 1 + 10 :=
  ⟨rfl, rfl, rfl, by decide⟩

/-- C5: slicing `[1, 2]` (or "ab") with `start 0, stop 1, step −1` — a
negative step with `start < stop` inside the guard's bounds — does not
produce an empty result: the walk decrements `i` below zero and the
`i as usize` index panics.  No amount of fuel makes the array walk return
an `ok` result. -/
theorem C5_negative_step_slice_panics :
    exec_array_slice_expression (vmOfStack [] [] []) [.int 1, .int 2] 0 1 (-1) 10 =
      .panic "index out of bounds" ∧
    exec_string_slice_expression (vmOfStack [] [] []) "ab" 0 1 (-1) 10 =
      .panic "unwrap of None" ∧
    ∀ (fuel : Nat) (elems : List Object),
      arraySliceLoop [.int 1, .int 2] 1 (-1) fuel 0 [] ≠ .ok elems := by
  refine ⟨rfl, rfl, ?_⟩
  intro fuel elems h
  rcases fuel with _ | fuel
  · exact Outcome.noConfusion h
  · rcases fuel with _ | fuel
    · exact Outcome.noConfusion h
    · exact Outcome.noConfusion h

/-- C6: an Int division by zero does not surface as a `run()` error
string: `BigInt` division panics, for every left operand and every VM
state, and so does the dispatch of a `Div` instruction over `1 / 0`. -/
theorem C6_div_by_zero_panics_not_error :
    (∀ (vm : VM) (left : Int),
      execute_binary_int_operation vm .Div left 0 =
        .panic "attempt to divide by zero") ∧
    stepOnce extUnit 10 (vmOfStack [.int 1, .int 0] [opByte .Div] []) =
      .panic "attempt to divide by zero" :=
  ⟨fun _ _ => rfl, rfl⟩

/-- C9: `push` with `sp` at `STACK_SIZE = 2048` returns the error
`stack overflow` (the early return happens before any store, so the
functional model returns no changed state at all). -/
theorem C9_push_overflow (vm : VM) (o : Object) (h : vm.sp = STACK_SIZE) :
    STACK_SIZE = 2048 ∧ VM.push vm o = .err "stack overflow" := by
  refine ⟨rfl, ?_⟩
  rw [VM.push, if_pos (by omega)]

/-- Witness for C9 at a full stack. -/
theorem C9_push_overflow_witness :
    ({ vmOfStack [] [] [] with sp := 2048 } : VM).sp = STACK_SIZE ∧
    (STACK_SIZE = 2048 ∧
      VM.push { vmOfStack [] [] [] with sp := 2048 } (.int 1) =
        .err "stack overflow") :=
  ⟨rfl, C9_push_overflow _ _ rfl⟩

/-- C7: calling a Closure with the wrong number of arguments is the exact
error `wrong number of arguments. got: <n>, want: <m>`; with the right
number, a frame with `bp = sp − nargs` (and `ip = −1`) is pushed and `sp`
becomes `bp + num_locals`. -/
theorem C7_call_closure_protocol (E : Ext) (vm : VM) (ins : List Nat)
    (nl np numArgs : Nat) (free : List Object)
    (hsp : numArgs + 1 ≤ vm.sp)
    (hcallee : vm.stack[vm.sp - 1 - numArgs]? = some (.closure ins nl np free)) :
    (numArgs ≠ np →
      exec_call E vm numArgs =
        .err s!"wrong number of arguments. got: {numArgs}, want: {np}") ∧
    (numArgs = np →
      exec_call E vm numArgs =
        .ok { vm with
              frames := vm.frames ++
                [{ cl := ⟨ins, nl, np, free⟩, ip := -1, bp := vm.sp - numArgs }]
              framesIndex := vm.framesIndex + 1
              sp := vm.sp - numArgs + nl }) := by
  have hnot : ¬vm.sp < numArgs + 1 := by omega
  have hstep : exec_call E vm numArgs = call_closure vm ⟨ins, nl, np, free⟩ numArgs := by
    rw [exec_call, if_neg hnot, hcallee]
    rfl
  constructor
  · intro hne
    rw [hstep, call_closure, if_pos hne]
  · intro heq
    rw [hstep, call_closure, if_neg (by simp [heq])]
    rfl

/-- Witness for C7: a 1-parameter, 3-local closure called with one
argument. -/
theorem C7_call_closure_protocol_witness :
    1 + 1 ≤ (vmOfStack [.closure [1] 3 1 [], .int 9] [] []).sp ∧
    exec_call extUnit (vmOfStack [.closure [1] 3 1 [], .int 9] [] []) 1 =
      .ok { vmOfStack [.closure [1] 3 1 [], .int 9] [] [] with
            frames := (vmOfStack [.closure [1] 3 1 [], .int 9] [] []).frames ++
              [{ cl := ⟨[1], 3, 1, []⟩, ip := -1, bp := 1 }]
            framesIndex := 2
            sp := 4 } :=
  ⟨by decide,
    (C7_call_closure_protocol extUnit (vmOfStack [.closure [1] 3 1 [], .int 9] [] [])
      [1] 3 1 1 [] (by decide) rfl).2 rfl⟩

/-- C8: for every opcode and every operand list matching the opcode's
defined arity, with each value representable in its defined width,
`read_operands` applied to the bytes `make` emits after the opcode byte
returns exactly the operands together with a byte count equal to the sum
of the widths. -/
theorem C8_make_read_operands_roundtrip (op : Opcode) (operands : List Nat)
    (h : List.Forall₂ (fun o w => o < 2 ^ (8 * w)) operands (operandWidths op)) :
    ∃ ins, make op operands = some ins ∧
      read_operands (operandWidths op) (ins.drop 1) =
        some (operands, (operandWidths op).sum) := by
  have hfits := forall₂_operandFits operands (operandWidths op) h
    (operandWidths_shape op)
  obtain ⟨body, hbody⟩ := writeOperands_isSome operands (operandWidths op) hfits
  refine ⟨opByte op :: body, ?_, ?_⟩
  · rw [make, hbody]
    rfl
  · have hmain := readOperandsAux_writeOperands operands (operandWidths op)
      hfits body hbody [] []
    simpa [read_operands] using hmain

/-- Witness for C8 at `Closure 65534 255` (a u16 and a u8 operand). -/
theorem C8_make_read_operands_roundtrip_witness :
    List.Forall₂ (fun o w => o < 2 ^ (8 * w)) [65534, 255]
      (operandWidths .Closure) ∧
    (∃ ins, make .Closure [65534, 255] = some ins ∧
      read_operands (operandWidths .Closure) (ins.drop 1) =
        some ([65534, 255], (operandWidths .Closure).sum)) :=
  have hF : List.Forall₂ (fun o w => o < 2 ^ (8 * w)) [65534, 255]
      (operandWidths .Closure) :=
    .cons (by norm_num) (.cons (by norm_num) .nil)
  ⟨hF, C8_make_read_operands_roundtrip .Closure [65534, 255] hF⟩

/-- C10: `And` pushes the right operand when the left is truthy and the
left otherwise; `Or` pushes the left operand when it is truthy and the
right otherwise; in both cases the pushed object is one of the two popped
operand objects themselves, never a canonicalised Bool. -/
theorem C10_boolean_operator_selects_operand (vm : VM) (l r : Object)
    (hsp2 : 2 ≤ vm.sp) (hlen : vm.sp ≤ vm.stack.length)
    (hcap : vm.sp ≤ STACK_SIZE)
    (hl : vm.stack[vm.sp - 2]? = some l) (hr : vm.stack[vm.sp - 1]? = some r) :
    execute_boolean_operator vm .And =
      .ok { vm with
            stack := vm.stack.set (vm.sp - 2) (if is_truthy l then r else l)
            sp := vm.sp - 1
            lastPopped := some l } ∧
    execute_boolean_operator vm .Or =
      .ok { vm with
            stack := vm.stack.set (vm.sp - 2) (if is_truthy l then l else r)
            sp := vm.sp - 1
            lastPopped := some l } ∧
    ((if is_truthy l then r else l) = l ∨ (if is_truthy l then r else l) = r) ∧
    ((if is_truthy l then l else r) = l ∨ (if is_truthy l then l else r) = r) := by
  have h1 : vm.sp ≠ 0 := by omega
  have hpop1 := pop_spec vm r h1 hr
  have h2 : ({ vm with sp := vm.sp - 1, lastPopped := some r } : VM).sp ≠ 0 := by
    simp only []
    omega
  have hpop2 := pop_spec { vm with sp := vm.sp - 1, lastPopped := some r } l h2 hl
  have hspfix : vm.sp - 1 - 1 = vm.sp - 2 := by omega
  have hsp1fix : vm.sp - 2 + 1 = vm.sp - 1 := by omega
  have hpush : ∀ res : Object,
      VM.push { vm with sp := vm.sp - 2, lastPopped := some l } res =
        .ok { vm with
              stack := vm.stack.set (vm.sp - 2) res
              sp := vm.sp - 1
              lastPopped := some l } := by
    intro res
    rw [VM.push, if_neg (by simp only []; omega), if_pos (by simp only []; omega)]
    simp only [hsp1fix]
  refine ⟨?_, ?_, ?_, ?_⟩
  · simp only [execute_boolean_operator, hpop1, hpop2, outcome_pure,
      outcome_bind_ok, hspfix, hpush]
  · simp only [execute_boolean_operator, hpop1, hpop2, outcome_pure,
      outcome_bind_ok, hspfix, hpush]
  · by_cases ht : is_truthy l <;> simp [ht]
  · by_cases ht : is_truthy l <;> simp [ht]

/-- Witness for C10 at `left = Int 1`, `right = Int 2` (left truthy, so
`And` yields the Int 2 and `Or` the Int 1 — no Bool involved). -/
theorem C10_boolean_operator_selects_operand_witness :
    2 ≤ (vmOfStack [.int 1, .int 2] [] []).sp ∧
    execute_boolean_operator (vmOfStack [.int 1, .int 2] [] []) .And =
      .ok { vmOfStack [.int 1, .int 2] [] [] with
            stack := (vmOfStack [.int 1, .int 2] [] []).stack.set 0
              (if is_truthy (.int 1) then .int 2 else .int 1)
            sp := 1
            lastPopped := some (.int 1) } ∧
    execute_boolean_operator (vmOfStack [.int 1, .int 2] [] []) .Or =
      .ok { vmOfStack [.int 1, .int 2] [] [] with
            stack := (vmOfStack [.int 1, .int 2] [] []).stack.set 0
              (if is_truthy (.int 1) then .int 1 else .int 2)
            sp := 1
            lastPopped := some (.int 1) } :=
  have hmain := C10_boolean_operator_selects_operand
    (vmOfStack [.int 1, .int 2] [] []) (.int 1) (.int 2)
    (by decide) (by decide) (by decide) rfl rfl
  ⟨by decide, hmain.1, hmain.2.1⟩

end Panda
